import Mathlib

/-!
# Verification of the rsimg batch image processor

A shallow embedding of `src/main.rs` and `src/processor.rs` of the rsimg
repository (a parallel image resizer/re-encoder), together with theorems
settling the specification claims about it.

Modelling conventions:
* A decoded `image::DynamicImage` is modelled as dimensions plus a row-major
  list of RGBA pixels.
* The Lanczos3 resampler is external to the repository (the `image` crate);
  its pixel output is irrelevant to every claim, so it is a parameter
  `resample` of the definitions that resize.  The dimension computation of
  `DynamicImage::resize` (the crate's `resize_dimensions` with `fill = false`,
  which preserves aspect ratio and fits within the requested bounding box)
  is embedded exactly, with the crate's `f64` arithmetic idealised to exact
  rational arithmetic expressed over `Nat`.
* Rust's `(x as f32 * (s as f32 / 100.0)).round() as u32` in `resize_image`
  is idealised to exact round-half-away-from-zero on rationals, expressed
  over `Nat` as `(2*d*s + 100) / 200`.
* Filesystem writes are modelled as `WriteEvent` values; whether creating or
  writing a given output path succeeds is an oracle `fsOk : String → Bool`
  (modelling `File::create` / `fs::write` failures).  Encoder byte output is
  kept symbolic (`EncodedData` records exactly what the Rust code hands to
  each encoder).
* `image::open` is a parameter `decode : String → Except String DynamicImage`.
* Errors are modelled by the message that `anyhow`'s `Display` shows for
  them (the outermost context string).
* Rayon's `par_iter().map(...).collect::<Vec<_>>()` over a `Vec` is an
  indexed parallel iterator, so the collected vector is in input order and
  has one element per input; it is modelled by `List.map`.
-/

set_option autoImplicit false

/-- Decidable equality for `Except` (needed to `decide` concrete runs). -/
instance {ε α : Type} [DecidableEq ε] [DecidableEq α] : DecidableEq (Except ε α) :=
  fun x y =>
    match x, y with
    | .ok a, .ok b =>
      if h : a = b then .isTrue (h ▸ rfl)
      else .isFalse (fun he => h (Except.ok.inj he))
    | .error a, .error b =>
      if h : a = b then .isTrue (h ▸ rfl)
      else .isFalse (fun he => h (Except.error.inj he))
    | .ok _, .error _ => .isFalse (fun he => Except.noConfusion he)
    | .error _, .ok _ => .isFalse (fun he => Except.noConfusion he)

namespace Rsimg

/-- One RGBA pixel of a decoded image. -/
structure Rgba where
  r : Nat
  g : Nat
  b : Nat
  a : Nat
deriving DecidableEq, Repr

/-- One RGB pixel (after alpha has been dropped). -/
structure Rgb where
  r : Nat
  g : Nat
  b : Nat
deriving DecidableEq, Repr

/-- Model of `image::DynamicImage`: pixel dimensions and row-major RGBA
pixel content. -/
structure DynamicImage where
  width : Nat
  height : Nat
  pixels : List Rgba
deriving DecidableEq, Repr

/-- Model of an `image::RgbImage` (3-channel, no alpha). -/
structure RgbImage where
  width : Nat
  height : Nat
  pixels : List Rgb
deriving DecidableEq, Repr

/-- Dropping the alpha component of one pixel. -/
def Rgba.toRgb (p : Rgba) : Rgb := ⟨p.r, p.g, p.b⟩

/-- Model of `DynamicImage::to_rgb8` (processor.rs line 221): convert to a
3-channel RGB image, discarding any alpha channel. -/
def toRgb8 (img : DynamicImage) : RgbImage :=
  ⟨img.width, img.height, img.pixels.map Rgba.toRgb⟩

/-- The type of the external Lanczos3 resampler's pixel output: given the
source image and the target dimensions, the resampled pixel content.  The
repository delegates resampling to the `image` crate, so it is kept
abstract (a parameter of the development). -/
abbrev Resampler := DynamicImage → Nat → Nat → List Rgba

/-- `(d as f32 * (scale as f32 / 100.0)).round() as u32` of
`resize_image` (processor.rs lines 175-177), idealised to exact rational
round-half-away-from-zero: `round(d * scale / 100) = ⌊(2*d*scale + 100) / 200⌋`. -/
def roundScale (d scale : Nat) : Nat :=
  (2 * d * scale + 100) / 200

/-- The dimension computation of `image::DynamicImage::resize` (the crate's
`resize_dimensions(w, h, nw, nh, false)`): the largest aspect-ratio-preserving
dimensions fitting within the `nw × nh` bounding box, each axis rounded
half-away-from-zero and clamped to at least 1.  `ratio = min(nw/w, nh/h)`;
the result is `(max(round(w*ratio), 1), max(round(h*ratio), 1))`, with the
crate's `f64` arithmetic idealised to exact rational arithmetic. -/
def resizeDimensions (w h nw nh : Nat) : Nat × Nat :=
  if nw * h ≤ nh * w then
    (max nw 1, max ((2 * h * nw + w) / (2 * w)) 1)
  else
    (max ((2 * w * nh + h) / (2 * h)) 1, max nh 1)

/-- `resize_image` (processor.rs lines 169-191): at scale 100 return the
image unchanged (no resampling); otherwise compute the rounded target
dimensions, fail if either is 0, and resize (aspect-preserving, via
`DynamicImage::resize` with the Lanczos3 filter). -/
def resize_image (resample : Resampler) (img : DynamicImage) (scale : Nat) :
    Except String DynamicImage :=
  if scale = 100 then
    .ok img
  else
    let newWidth := roundScale img.width scale
    let newHeight := roundScale img.height scale
    if newWidth = 0 ∨ newHeight = 0 then
      .error ("Resulting dimensions too small: " ++ Nat.repr newWidth ++ "x" ++
        Nat.repr newHeight ++ " (scale: " ++ Nat.repr scale ++ "%)")
    else
      let dims := resizeDimensions img.width img.height newWidth newHeight
      .ok ⟨dims.1, dims.2, resample img dims.1 dims.2⟩

/-- What the Rust code hands to an encoder for one output file: the
encoder's byte output is kept symbolic, recording exactly the image data
and quality passed in (processor.rs lines 204-238). -/
inductive EncodedData where
  | jpeg (img : DynamicImage) (quality : Nat)
  | webp (rgb : RgbImage) (quality : Nat)
  | png (img : DynamicImage)
deriving DecidableEq, Repr

/-- One filesystem write performed by the program: the destination path and
the encoded payload written there. -/
structure WriteEvent where
  path : String
  data : EncodedData
deriving DecidableEq, Repr

/-- Oracle for whether creating/writing a given output path succeeds
(models `File::create` / `fs::write` I/O failures). -/
abbrev FsOracle := String → Bool

/-- `save_jpeg` (processor.rs lines 204-214): create the file and encode
the image as JPEG at the given quality. -/
def save_jpeg (fsOk : FsOracle) (img : DynamicImage) (path : String)
    (quality : Nat) : Except String WriteEvent :=
  if fsOk path then .ok ⟨path, .jpeg img quality⟩
  else .error ("Failed to create file: " ++ path)

/-- `save_webp` (processor.rs lines 217-230): convert the image to RGB8
(dropping any alpha), encode as WebP at the given quality, write the bytes. -/
def save_webp (fsOk : FsOracle) (img : DynamicImage) (path : String)
    (quality : Nat) : Except String WriteEvent :=
  if fsOk path then .ok ⟨path, .webp (toRgb8 img) quality⟩
  else .error ("Failed to write WebP file: " ++ path)

/-- `save_png` (processor.rs lines 233-238): save the image as PNG. -/
def save_png (fsOk : FsOracle) (img : DynamicImage) (path : String) :
    Except String WriteEvent :=
  if fsOk path then .ok ⟨path, .png img⟩
  else .error ("Failed to save PNG: " ++ path)

/-- `str::to_lowercase` of the format identifier, modelled character-wise. -/
def toLowerStr (s : String) : String :=
  String.mk (s.data.map Char.toLower)

/-- `save_image` (processor.rs lines 194-201): dispatch on the lowercased
format identifier; any other identifier is an "Unsupported format" error. -/
def save_image (fsOk : FsOracle) (img : DynamicImage) (path : String)
    (format : String) (quality : Nat) : Except String WriteEvent :=
  let l := toLowerStr format
  if l = "jpg" ∨ l = "jpeg" then save_jpeg fsOk img path quality
  else if l = "webp" then save_webp fsOk img path quality
  else if l = "png" then save_png fsOk img path
  else .error ("Unsupported format: " ++ format)

/-- The format identifiers `save_image` can encode (the arms of its
dispatch), checked on the lowercased identifier. -/
def supportedFormat (format : String) : Bool :=
  let l := toLowerStr format
  l = "jpg" || l = "jpeg" || l = "webp" || l = "png"

/-- The deterministic output path of one task
(processor.rs lines 151-152): `output_parent.join("{stem}_{scale}pct.{fmt}")`. -/
def outPath (parent stem : String) (scale : Nat) (fmt : String) : String :=
  parent ++ "/" ++ stem ++ "_" ++ Nat.repr scale ++ "pct." ++ fmt

/-- The inner loop of `process_single_with_progress`
(processor.rs lines 150-162): for one resized image, save to each format in
order; the first failing save aborts the remaining formats (Rust `?`) with
the outermost context message `Error saving: {path}`.  Returns the write
events performed and the loop's outcome. -/
def processFormats (fsOk : FsOracle) (resized : DynamicImage)
    (stem parent : String) (scale quality : Nat) :
    List String → List WriteEvent × Except String Unit
  | [] => ([], .ok ())
  | fmt :: rest =>
    let path := outPath parent stem scale fmt
    match save_image fsOk resized path fmt quality with
    | .error _ => ([], .error ("Error saving: " ++ path))
    | .ok ev =>
      let r := processFormats fsOk resized stem parent scale quality rest
      (ev :: r.1, r.2)

/-- The outer loop of `process_single_with_progress`
(processor.rs lines 147-163): for each scale in order, resize once, then run
the format loop; the first failure (resize or save) aborts everything after
it for this file (Rust `?`), while the write events already performed are
kept.  Returns the write events performed and the loop's outcome. -/
def processScales (resample : Resampler) (fsOk : FsOracle) (img : DynamicImage)
    (stem parent : String) (formats : List String) (quality : Nat) :
    List Nat → List WriteEvent × Except String Unit
  | [] => ([], .ok ())
  | scale :: rest =>
    match resize_image resample img scale with
    | .error e => ([], .error e)
    | .ok resized =>
      let r1 := processFormats fsOk resized stem parent scale quality formats
      match r1.2 with
      | .error e => (r1.1, .error e)
      | .ok _ =>
        let r2 := processScales resample fsOk img stem parent formats quality rest
        (r1.1 ++ r2.1, r2.2)

/-- Model of one input path: its display string and the (possibly absent)
file stem and parent directory that `Path::file_stem` / `Path::parent`
would yield. -/
structure InputPath where
  display : String
  fileStem : Option String
  parentDir : Option String
deriving DecidableEq, Repr

/-- Model of `image::open` plus decoding: external decoder oracle. -/
abbrev Decoder := String → Except String DynamicImage

/-- Output-parent resolution of `process_single_with_progress`
(processor.rs lines 138-144): the configured output directory if one is
given, otherwise the input file's own parent directory. -/
def resolveOutputParent (output_dir : Option String) (file : InputPath) :
    Except String String :=
  match output_dir with
  | some d => .ok d
  | none =>
    match file.parentDir with
    | some p => .ok p
    | none => .error "Cannot determine parent directory"

/-- `process_single_with_progress` (processor.rs lines 119-166): decode the
file once, extract the stem, resolve the output parent, then run the
scale × format task loop.  Returns the write events performed and the file's
single outcome. -/
def process_single_with_progress (decode : Decoder) (resample : Resampler)
    (fsOk : FsOracle) (file : InputPath) (formats : List String)
    (scales : List Nat) (quality : Nat) (output_dir : Option String) :
    List WriteEvent × Except String Unit :=
  match decode file.display with
  | .error _ => ([], .error ("Failed to open image: " ++ file.display))
  | .ok img =>
    match file.fileStem with
    | none => ([], .error ("Invalid filename: " ++ file.display))
    | some stem =>
      match resolveOutputParent output_dir file with
      | .error e => ([], .error e)
      | .ok parent =>
        processScales resample fsOk img stem parent formats quality scales

/-- Is a per-file outcome a failure? -/
def isErr (r : Except String Unit) : Bool :=
  match r with
  | .error _ => true
  | .ok _ => false

/-- The error carried by a failing outcome, if any. -/
def errOf (r : Except String Unit) : Option String :=
  match r with
  | .error e => some e
  | .ok _ => none

/-- The aggregated result of `process_all`: the per-file outcomes (in input
order, as rayon's indexed `collect` produces them), the filtered error list,
the numbered error lines printed to stderr, and the function's return value. -/
structure BatchResult where
  results : List (Except String Unit)
  errors : List String
  errorLines : List String
  report : Except String Unit
deriving DecidableEq, Repr

/-- `process_all` (processor.rs lines 11-115): process every file (rayon
`par_iter().map(...).collect()` — all files are attempted, one outcome per
file, in input order), filter out the errors, print them as a numbered list,
and return `Ok` iff there were none, otherwise the aggregate error
`"{n} images were not processed correctly"`. -/
def process_all (decode : Decoder) (resample : Resampler) (fsOk : FsOracle)
    (files : List InputPath) (formats : List String) (scales : List Nat)
    (quality : Nat) (output_dir : Option String) : BatchResult :=
  let results := files.map (fun f =>
    (process_single_with_progress decode resample fsOk f formats scales
      quality output_dir).2)
  let errors := results.filterMap errOf
  { results := results
    errors := errors
    errorLines :=
      errors.enum.map (fun p => Nat.repr (p.1 + 1) ++ ". " ++ p.2)
    report :=
      if errors.isEmpty then .ok ()
      else .error (Nat.repr errors.length ++
        " images were not processed correctly") }

/-- The scale-validation loop of `main` (main.rs lines 106-110): the error
message for the first out-of-range scale, if any. -/
def scalesInvalidMsg (scales : List Nat) : Option String :=
  (scales.find? (fun s => s < 10 || 100 < s)).map
    (fun s => "Scales must be between 10 and 100 (" ++ Nat.repr s ++
      "% is invalid)")

/-- `main` after argument parsing (main.rs lines 100-205), with the
discovered file list as a parameter (the result of `collect_image_files`):
validate quality, validate scales, then — if the file list is empty — print
"No valid images found." and return `Ok(())` WITHOUT invoking the batch
orchestrator; otherwise run `process_all` and return its result.  The
`Bool` component records whether `process_all` was invoked. -/
def mainModel (decode : Decoder) (resample : Resampler) (fsOk : FsOracle)
    (quality : Nat) (scales : List Nat) (formats : List String)
    (files : List InputPath) (output_dir : Option String) :
    Except String Unit × Bool :=
  if 100 < quality then
    (.error "Quality must be between 0 and 100", false)
  else
    match scalesInvalidMsg scales with
    | some m => (.error m, false)
    | none =>
      if files.isEmpty then
        (.ok (), false)
      else
        ((process_all decode resample fsOk files formats scales quality
          output_dir).report, true)

/-! ## Shared lemmas -/

theorem errOf_eq_none_iff (r : Except String Unit) : errOf r = none ↔ r = .ok () := by
  cases r with
  | error e => simp [errOf]
  | ok u => cases u; simp [errOf]

theorem filterMap_errOf_eq_nil_iff (l : List (Except String Unit)) :
    l.filterMap errOf = [] ↔ ∀ r ∈ l, r = .ok () := by
  rw [List.filterMap_eq_nil_iff]
  exact forall_congr' fun r => forall_congr' fun _ => errOf_eq_none_iff r

theorem length_filterMap_errOf (l : List (Except String Unit)) :
    (l.filterMap errOf).length = l.countP isErr := by
  induction l with
  | nil => rfl
  | cons x xs ih =>
    cases x with
    | error e => simp [errOf, isErr, List.countP_cons, ih]
    | ok u => simp [errOf, isErr, List.countP_cons, ih]

theorem get?_enumFrom {α : Type} (l : List α) :
    ∀ (n i : Nat), (List.enumFrom n l).get? i = (l.get? i).map (fun e => (n + i, e)) := by
  induction l with
  | nil => intro n i; simp
  | cons x xs ih =>
    intro n i
    cases i with
    | zero => simp [List.enumFrom]
    | succ j =>
      simp only [List.enumFrom, List.get?]
      rw [ih (n + 1) j]
      have harith : n + 1 + j = n + (j + 1) := by omega
      rw [harith]

/-! ## The claims -/

/-- Claim C5: a task with scale = 100 is an identity resize: for every
image and every resampler, `resize_image` at scale 100 returns the input
image itself (`Ok(img.clone())`) — no resampling, unchanged dimensions and
pixels, and no failure mode. -/
theorem scale100_identity_resize (resample : Resampler) (img : DynamicImage) :
    resize_image resample img 100 = .ok img := by
  simp [resize_image]

/-- Claim C1: `process_all` attempts every file regardless of failures in
other files: the collected outcome list has exactly one entry per input
file, and the `i`-th outcome is exactly the result of processing the `i`-th
file on its own — a failure in one file cannot prevent, cancel, or alter
the outcome of any other file. -/
theorem process_all_attempts_every_file (decode : Decoder) (resample : Resampler)
    (fsOk : FsOracle) (files : List InputPath) (formats : List String)
    (scales : List Nat) (quality : Nat) (output_dir : Option String) (i : Nat) :
    (process_all decode resample fsOk files formats scales quality
      output_dir).results.length = files.length ∧
    (process_all decode resample fsOk files formats scales quality
      output_dir).results.get? i =
      (files.get? i).map (fun f =>
        (process_single_with_progress decode resample fsOk f formats scales
          quality output_dir).2) := by
  constructor
  · simp [process_all]
  · simp [process_all, List.get?_eq_getElem?, List.getElem?_map]

/-- Claim C2: `process_all` returns overall success iff no per-file outcome
is a failure; the error list has exactly one entry per failing file; when at
least one file fails, the return value is the single aggregate error
`"{n} images were not processed correctly"` with `n` the number of failed
files, and the surfaced stderr lines number the individual errors
`1.`, `2.`, ... in order. -/
theorem process_all_aggregate_report (decode : Decoder) (resample : Resampler)
    (fsOk : FsOracle) (files : List InputPath) (formats : List String)
    (scales : List Nat) (quality : Nat) (output_dir : Option String)
    (B : BatchResult)
    (hB : B = process_all decode resample fsOk files formats scales quality
      output_dir) :
    (B.report = .ok () ↔ ∀ r ∈ B.results, r = .ok ()) ∧
    B.errors.length = B.results.countP isErr ∧
    (B.errors ≠ [] →
      B.report = .error (Nat.repr B.errors.length ++
        " images were not processed correctly")) ∧
    (∀ i : Nat, B.errorLines.get? i =
      (B.errors.get? i).map (fun e => Nat.repr (i + 1) ++ ". " ++ e)) := by
  subst hB
  simp only [process_all]
  refine ⟨?_, length_filterMap_errOf _, ?_, ?_⟩
  · by_cases h : (files.map (fun f =>
        (process_single_with_progress decode resample fsOk f formats scales
          quality output_dir).2)).filterMap errOf = []
    · rw [if_pos (by simp [h])]
      constructor
      · intro _; exact (filterMap_errOf_eq_nil_iff _).mp h
      · intro _; rfl
    · rw [if_neg (by simpa [List.isEmpty_iff] using h)]
      simp only [filterMap_errOf_eq_nil_iff] at h
      constructor
      · intro hcontra; exact absurd hcontra (by simp)
      · intro hall; exact absurd hall h
  · intro h
    rw [if_neg (by simpa [List.isEmpty_iff] using h)]
  · intro i
    rw [List.enum, List.get?_map, get?_enumFrom]
    cases ((files.map (fun f =>
        (process_single_with_progress decode resample fsOk f formats scales
          quality output_dir).2)).filterMap errOf).get? i <;> simp

/-- Claim C3: within one file, the first failing task aborts all remaining
tasks and becomes the file's single outcome, while outputs already written
for earlier tasks are kept (no rollback).  Stated as the exhaustive step
laws of the two task loops plus the pass-through to the file outcome:
(1) a failing resize aborts the whole remaining scale list with that error
and no further writes; (2) a failure inside a scale's format loop keeps the
writes made so far, aborts all later scales, and becomes the outcome;
(3) a failing save aborts the remaining formats of that scale with the
`Error saving:` context and no further writes; (4) a successful save keeps
its write and continues; (5) the loop result is exactly the file's
outcome returned by `process_single_with_progress`. -/
theorem first_failure_aborts_file (decode : Decoder) (resample : Resampler)
    (fsOk : FsOracle) (img : DynamicImage) (stem parent : String)
    (quality : Nat) (output_dir : Option String) :
    (∀ (formats : List String) (scale : Nat) (rest : List Nat) (e : String),
      resize_image resample img scale = .error e →
      processScales resample fsOk img stem parent formats quality
        (scale :: rest) = ([], .error e)) ∧
    (∀ (formats : List String) (scale : Nat) (rest : List Nat)
        (resized : DynamicImage) (ws : List WriteEvent) (e : String),
      resize_image resample img scale = .ok resized →
      processFormats fsOk resized stem parent scale quality formats =
        (ws, .error e) →
      processScales resample fsOk img stem parent formats quality
        (scale :: rest) = (ws, .error e)) ∧
    (∀ (resized : DynamicImage) (scale : Nat) (fmt : String)
        (rest : List String) (e : String),
      save_image fsOk resized (outPath parent stem scale fmt) fmt quality =
        .error e →
      processFormats fsOk resized stem parent scale quality (fmt :: rest) =
        ([], .error ("Error saving: " ++ outPath parent stem scale fmt))) ∧
    (∀ (resized : DynamicImage) (scale : Nat) (fmt : String)
        (rest : List String) (ev : WriteEvent),
      save_image fsOk resized (outPath parent stem scale fmt) fmt quality =
        .ok ev →
      processFormats fsOk resized stem parent scale quality (fmt :: rest) =
        (ev :: (processFormats fsOk resized stem parent scale quality rest).1,
          (processFormats fsOk resized stem parent scale quality rest).2)) ∧
    (∀ (file : InputPath) (formats : List String) (scales : List Nat),
      decode file.display = .ok img → file.fileStem = some stem →
      resolveOutputParent output_dir file = .ok parent →
      process_single_with_progress decode resample fsOk file formats scales
        quality output_dir =
        processScales resample fsOk img stem parent formats quality scales) := by
  refine ⟨?_, ?_, ?_, ?_, ?_⟩
  · intro formats scale rest e h
    simp [processScales, h]
  · intro formats scale rest resized ws e hres hfmt
    simp [processScales, hres, hfmt]
  · intro resized scale fmt rest e h
    simp [processFormats, h]
  · intro resized scale fmt rest ev h
    simp [processFormats, h]
  · intro file formats scales hdec hstem hparent
    simp [process_single_with_progress, hdec, hstem, hparent]

/-- A successful `save_image` writes at exactly the path it was given. -/
theorem save_image_ok_path (fsOk : FsOracle) (img : DynamicImage)
    (path fmt : String) (quality : Nat) (ev : WriteEvent)
    (h : save_image fsOk img path fmt quality = .ok ev) : ev.path = path := by
  simp only [save_image, save_jpeg, save_webp, save_png] at h
  repeat' split at h
  all_goals try cases h
  all_goals rfl

/-- If one scale's format loop succeeds, its writes are the scale's format
paths in order. -/
theorem processFormats_ok_writes (fsOk : FsOracle) (resized : DynamicImage)
    (stem parent : String) (scale quality : Nat) :
    ∀ (formats : List String) (ws : List WriteEvent),
      processFormats fsOk resized stem parent scale quality formats =
        (ws, .ok ()) →
      ws.map WriteEvent.path = formats.map (fun f => outPath parent stem scale f) := by
  intro formats
  induction formats with
  | nil =>
    intro ws h
    simp only [processFormats] at h
    cases h
    rfl
  | cons fmt rest ih =>
    intro ws h
    cases hsave : save_image fsOk resized (outPath parent stem scale fmt) fmt
        quality with
    | error e =>
      simp [processFormats, hsave] at h
    | ok ev =>
      simp only [processFormats, hsave] at h
      have hws : ws = ev :: (processFormats fsOk resized stem parent scale
          quality rest).1 := by
        have := congrArg Prod.fst h
        simpa using this.symm
      have hrest : (processFormats fsOk resized stem parent scale quality
          rest).2 = .ok () := by
        have := congrArg Prod.snd h
        simpa using this
      have hpath : ev.path = outPath parent stem scale fmt :=
        save_image_ok_path fsOk resized (outPath parent stem scale fmt) fmt
          quality ev hsave
      subst hws
      simp only [List.map_cons, hpath]
      rw [ih _ (by rw [← hrest])]

/-- If the whole scale loop succeeds, its writes are the full
scale × format matrix of paths, scales outer, formats inner. -/
theorem processScales_ok_writes (resample : Resampler) (fsOk : FsOracle)
    (img : DynamicImage) (stem parent : String) (formats : List String)
    (quality : Nat) :
    ∀ (scales : List Nat) (ws : List WriteEvent),
      processScales resample fsOk img stem parent formats quality scales =
        (ws, .ok ()) →
      ws.map WriteEvent.path =
        scales.flatMap (fun s => formats.map (fun f => outPath parent stem s f)) := by
  intro scales
  induction scales with
  | nil =>
    intro ws h
    simp only [processScales] at h
    cases h
    rfl
  | cons scale rest ih =>
    intro ws h
    cases hres : resize_image resample img scale with
    | error e =>
      simp [processScales, hres] at h
    | ok resized =>
      cases hfmt : (processFormats fsOk resized stem parent scale quality
          formats).2 with
      | error e =>
        simp [processScales, hres, hfmt] at h
      | ok u =>
        simp only [processScales, hres, hfmt] at h
        have hws : ws = (processFormats fsOk resized stem parent scale quality
            formats).1 ++ (processScales resample fsOk img stem parent formats
            quality rest).1 := by
          have := congrArg Prod.fst h
          simpa using this.symm
        have hrest : (processScales resample fsOk img stem parent formats
            quality rest).2 = .ok () := by
          have := congrArg Prod.snd h
          simpa using this
        subst hws
        rw [List.map_append, List.flatMap_cons]
        congr 1
        · cases u
          exact processFormats_ok_writes fsOk resized stem parent scale quality
            formats _ (by rw [← hfmt])
        · exact ih _ (by rw [← hrest])

/-- Length of a flat map whose pieces all have length `n`. -/
theorem length_flatMap_const {α β : Type} (l : List α) (g : α → List β) (n : Nat)
    (h : ∀ a, (g a).length = n) : (l.flatMap g).length = l.length * n := by
  induction l with
  | nil => simp
  | cons x xs ih => simp [List.flatMap_cons, ih, h x, Nat.succ_mul, Nat.add_comm]

/-- Claim C4: for every input file processed successfully with scale list S
and format list F, exactly |S| × |F| output files are written, each at the
deterministic path `<output_parent>/<input_stem>_<scale>pct.<format>` (in
scale-outer/format-inner order), where the output parent is the configured
output directory if one is given and otherwise the input file's own parent
directory. -/
theorem success_writes_full_matrix (decode : Decoder) (resample : Resampler)
    (fsOk : FsOracle) (file : InputPath) (formats : List String)
    (scales : List Nat) (quality : Nat) (output_dir : Option String)
    (stem parent : String)
    (hstem : file.fileStem = some stem)
    (hparent : resolveOutputParent output_dir file = .ok parent)
    (hrun : (process_single_with_progress decode resample fsOk file formats
      scales quality output_dir).2 = .ok ()) :
    (process_single_with_progress decode resample fsOk file formats scales
      quality output_dir).1.length = scales.length * formats.length ∧
    (process_single_with_progress decode resample fsOk file formats scales
      quality output_dir).1.map WriteEvent.path =
      scales.flatMap (fun s => formats.map (fun f => outPath parent stem s f)) ∧
    (output_dir = some parent ∨
      (output_dir = none ∧ file.parentDir = some parent)) := by
  cases hdec : decode file.display with
  | error e =>
    simp [process_single_with_progress, hdec] at hrun
  | ok img =>
    have hloop : process_single_with_progress decode resample fsOk file formats
        scales quality output_dir =
        processScales resample fsOk img stem parent formats quality scales := by
      simp [process_single_with_progress, hdec, hstem, hparent]
    rw [hloop] at hrun ⊢
    have hmap := processScales_ok_writes resample fsOk img stem parent formats
      quality scales _ (by rw [← hrun])
    refine ⟨?_, hmap, ?_⟩
    · have hlen := congrArg List.length hmap
      rw [List.length_map] at hlen
      rw [hlen]
      exact length_flatMap_const scales _ formats.length
        (fun s => List.length_map _ _)
    · cases hod : output_dir with
      | some d =>
        left
        simp [resolveOutputParent, hod] at hparent
        rw [hparent]
      | none =>
        right
        refine ⟨rfl, ?_⟩
        cases hpd : file.parentDir with
        | some p =>
          simp [resolveOutputParent, hod, hpd] at hparent
          rw [hparent]
        | none => simp [resolveOutputParent, hod, hpd] at hparent

/-- Both components of `resizeDimensions` are positive (each is clamped by
`max · 1`). -/
theorem resizeDimensions_pos (w h nw nh : Nat) :
    0 < (resizeDimensions w h nw nh).1 ∧ 0 < (resizeDimensions w h nw nh).2 := by
  unfold resizeDimensions
  split <;> constructor <;> exact lt_of_lt_of_le one_pos (le_max_right _ _)

/-- Claim C6: for every image and scale `s < 100` where a rounded target
dimension is 0, `resize_image` fails with the degenerate-size error; by the
first-failure policy that error becomes the whole file's failure outcome
when `s` is reached first; and no zero-dimension image is ever produced by
a successful resize at `s < 100`. -/
theorem degenerate_scale_fails (resample : Resampler) (fsOk : FsOracle)
    (img : DynamicImage) (s : Nat) (stem parent : String) (quality : Nat)
    (hs : s < 100)
    (hzero : roundScale img.width s = 0 ∨ roundScale img.height s = 0) :
    resize_image resample img s =
      .error ("Resulting dimensions too small: " ++
        Nat.repr (roundScale img.width s) ++ "x" ++
        Nat.repr (roundScale img.height s) ++ " (scale: " ++
        Nat.repr s ++ "%)") ∧
    (∀ (formats : List String) (rest : List Nat),
      processScales resample fsOk img stem parent formats quality (s :: rest) =
        ([], .error ("Resulting dimensions too small: " ++
          Nat.repr (roundScale img.width s) ++ "x" ++
          Nat.repr (roundScale img.height s) ++ " (scale: " ++
          Nat.repr s ++ "%)"))) ∧
    (∀ (img2 : DynamicImage) (s2 : Nat) (r : DynamicImage), s2 < 100 →
      resize_image resample img2 s2 = .ok r → 0 < r.width ∧ 0 < r.height) := by
  have hmsg : resize_image resample img s =
      .error ("Resulting dimensions too small: " ++
        Nat.repr (roundScale img.width s) ++ "x" ++
        Nat.repr (roundScale img.height s) ++ " (scale: " ++
        Nat.repr s ++ "%)") := by
    simp only [resize_image]
    rw [if_neg (Nat.ne_of_lt hs), if_pos hzero]
  refine ⟨hmsg, ?_, ?_⟩
  · intro formats rest
    simp [processScales, hmsg]
  · intro img2 s2 r hs2 hok
    simp only [resize_image] at hok
    rw [if_neg (Nat.ne_of_lt hs2)] at hok
    by_cases hz : roundScale img2.width s2 = 0 ∨ roundScale img2.height s2 = 0
    · rw [if_pos hz] at hok
      cases hok
    · rw [if_neg hz] at hok
      cases hok
      exact resizeDimensions_pos img2.width img2.height
        (roundScale img2.width s2) (roundScale img2.height s2)

/-- `resizeDimensions` never exceeds the requested bounding box, and hits
it exactly when the box is proportional to the source dimensions. -/
theorem resizeDimensions_spec (w h nw nh : Nat) (hw : 0 < w) (hh : 0 < h)
    (hnw : 0 < nw) (hnh : 0 < nh) :
    (resizeDimensions w h nw nh).1 ≤ nw ∧ (resizeDimensions w h nw nh).2 ≤ nh ∧
    (nw * h = nh * w → resizeDimensions w h nw nh = (nw, nh)) := by
  unfold resizeDimensions
  split
  case isTrue hle =>
    refine ⟨max_le le_rfl hnw, max_le ?_ hnh, ?_⟩
    · have h2w : 0 < 2 * w := by omega
      have hlt : 2 * h * nw + w < (nh + 1) * (2 * w) := by nlinarith [hle, hw]
      exact Nat.lt_succ_iff.mp ((Nat.div_lt_iff_lt_mul h2w).mpr hlt)
    · intro heq
      have hprod : h * nw = w * nh := by
        calc h * nw = nw * h := by ring
        _ = nh * w := heq
        _ = w * nh := by ring
      have hcomm : 2 * h * nw + w = w * (2 * nh + 1) := by
        calc 2 * h * nw + w = 2 * (h * nw) + w := by ring
        _ = 2 * (w * nh) + w := by rw [hprod]
        _ = w * (2 * nh + 1) := by ring
      have hdiv : (2 * h * nw + w) / (2 * w) = nh := by
        rw [hcomm, show 2 * w = w * 2 by ring, Nat.mul_div_mul_left _ _ hw]
        omega
      rw [hdiv]
      simp [Nat.max_eq_left hnw, Nat.max_eq_left hnh]
  case isFalse hgt =>
    have hlt' : nh * w < nw * h := Nat.lt_of_not_le hgt
    refine ⟨max_le ?_ hnw, max_le le_rfl hnh, ?_⟩
    · have h2h : 0 < 2 * h := by omega
      have hlt : 2 * w * nh + h < (nw + 1) * (2 * h) := by nlinarith [hlt', hh]
      exact Nat.lt_succ_iff.mp ((Nat.div_lt_iff_lt_mul h2h).mpr hlt)
    · intro heq
      exact absurd (le_of_eq heq) hgt

/-- Claim C7 counterexample: the claim that the resized image has width
exactly `round(w × s/100)` on BOTH axes is false: a 100×10 image at scale
14 yields a 10×1 image (aspect-preserving fit), not 14×1, even though
`round(100 × 14/100) = 14`. -/
theorem resize_not_exact_counterexample :
    resize_image (fun _ _ _ => []) ⟨100, 10, []⟩ 14 = .ok ⟨10, 1, []⟩ ∧
    roundScale 100 14 = 14 ∧ roundScale 10 14 = 1 ∧ (10 : Nat) ≠ 14 := by
  decide

/-- Claim C7 (amended): for every image with positive dimensions and every
scale `s < 100` whose rounded target dimensions are both nonzero, resizing
succeeds and the result FITS WITHIN the bounding box
`round(w·s/100) × round(h·s/100)` (aspect-preserving `DynamicImage::resize`);
the dimensions equal the rounded targets exactly whenever the rounded box
is proportional to the original dimensions (in particular for square
images), but not in general. -/
theorem resize_fits_bounding_box (resample : Resampler) (img : DynamicImage)
    (s : Nat) (hw : 0 < img.width) (hh : 0 < img.height) (hs : s < 100)
    (hnw : 0 < roundScale img.width s) (hnh : 0 < roundScale img.height s) :
    ∃ r : DynamicImage, resize_image resample img s = .ok r ∧
      r.width ≤ roundScale img.width s ∧
      r.height ≤ roundScale img.height s ∧
      (roundScale img.width s * img.height =
          roundScale img.height s * img.width →
        r.width = roundScale img.width s ∧
        r.height = roundScale img.height s) := by
  have hcond : ¬(roundScale img.width s = 0 ∨ roundScale img.height s = 0) := by
    omega
  have hspec := resizeDimensions_spec img.width img.height
    (roundScale img.width s) (roundScale img.height s) hw hh hnw hnh
  refine ⟨⟨(resizeDimensions img.width img.height (roundScale img.width s)
      (roundScale img.height s)).1,
    (resizeDimensions img.width img.height (roundScale img.width s)
      (roundScale img.height s)).2,
    resample img
      (resizeDimensions img.width img.height (roundScale img.width s)
        (roundScale img.height s)).1
      (resizeDimensions img.width img.height (roundScale img.width s)
        (roundScale img.height s)).2⟩, ?_, hspec.1, hspec.2.1, ?_⟩
  · simp only [resize_image]
    rw [if_neg (Nat.ne_of_lt hs), if_neg hcond]
  · intro heq
    have h2 := hspec.2.2 heq
    constructor
    · show (resizeDimensions img.width img.height (roundScale img.width s)
        (roundScale img.height s)).1 = roundScale img.width s
      rw [h2]
    · show (resizeDimensions img.width img.height (roundScale img.width s)
        (roundScale img.height s)).2 = roundScale img.height s
      rw [h2]

/-- Claim C8 counterexample: with a valid configuration (the CLI defaults)
and an empty discovered file list, `main` returns success — exit status
ZERO — and never invokes the batch orchestrator; the claim that the process
exits non-zero on an empty file list is false. -/
theorem empty_list_counterexample :
    mainModel (fun _ => .error "unused") (fun _ _ _ => []) (fun _ => true)
      80 [75, 50, 25] ["jpg", "webp"] [] none = (.ok (), false) := by
  decide

/-- Claim C8 (amended): when the discovered input file list is empty, the
empty list is never handed to the batch orchestrator, but the run is NOT
rejected: `main` prints "No valid images found." and returns `Ok(())`
(exit status zero). -/
theorem empty_list_silent_success (decode : Decoder) (resample : Resampler)
    (fsOk : FsOracle) (quality : Nat) (scales : List Nat)
    (formats : List String) (output_dir : Option String)
    (hq : quality ≤ 100) (hsc : ∀ s ∈ scales, 10 ≤ s ∧ s ≤ 100) :
    mainModel decode resample fsOk quality scales formats [] output_dir =
      (.ok (), false) := by
  have hfind : scalesInvalidMsg scales = none := by
    have hnone : scales.find? (fun s => s < 10 || 100 < s) = none := by
      rw [List.find?_eq_none]
      intro x hx
      have hx2 := hsc x hx
      simp only [Bool.or_eq_true, decide_eq_true_eq, not_or]
      omega
    simp [scalesInvalidMsg, hnone]
  simp [mainModel, Nat.not_lt.mpr hq, hfind]

/-- Witness for the amended C8 theorem at the CLI default configuration. -/
theorem empty_list_silent_success_witness :
    mainModel (fun _ => .error "unused") (fun _ _ _ => []) (fun _ => true)
      80 [75, 50, 25] ["jpg", "webp"] [] (some "out") = (.ok (), false) :=
  empty_list_silent_success _ _ _ _ _ _ _ (by decide) (by decide)

/-- Claim C9 counterexample: a run with `--formats bmp` passes the whole
pre-flight validation of `main` (the orchestrator IS invoked), yet `bmp` is
not in the encoder dispatch's supported set, and the file's task fails at
encode time inside `save_image` — so format legality is NOT validated
before per-file processing. -/
theorem format_checked_only_at_encode_counterexample :
    mainModel (fun _ => .ok ⟨10, 10, []⟩) (fun _ _ _ => []) (fun _ => true)
      80 [50] ["bmp"] [⟨"a.jpg", some "a", some "."⟩] none =
      (.error "1 images were not processed correctly", true) ∧
    supportedFormat "bmp" = false ∧
    (process_single_with_progress (fun _ => .ok ⟨10, 10, []⟩)
      (fun _ _ _ => []) (fun _ => true) ⟨"a.jpg", some "a", some "."⟩
      ["bmp"] [50] 80 none).2 = .error "Error saving: ./a_50pct.bmp" ∧
    save_image (fun _ => true) ⟨5, 5, []⟩ "./a_50pct.bmp" "bmp" 80 =
      .error "Unsupported format: bmp" := by
  decide

/-- Claim C9 (amended): no pre-flight format validation exists; format
legality is checked only at encode time: for every format identifier
outside the supported set {jpg, jpeg, webp, png} (case-insensitive),
`save_image` fails with an `Unsupported format` error, which by the
first-failure policy becomes the file's outcome. -/
theorem unsupported_format_fails_at_encode (fsOk : FsOracle)
    (img : DynamicImage) (path fmt : String) (quality : Nat)
    (h : supportedFormat fmt = false) :
    save_image fsOk img path fmt quality =
      .error ("Unsupported format: " ++ fmt) := by
  simp only [supportedFormat, Bool.or_eq_false_iff,
    decide_eq_false_iff_not] at h
  obtain ⟨⟨⟨h1, h2⟩, h3⟩, h4⟩ := h
  simp [save_image, h1, h2, h3, h4]

/-- Witness for the amended C9 theorem at the unsupported identifier
`bmp`. -/
theorem unsupported_format_fails_at_encode_witness :
    save_image (fun _ => true) ⟨1, 1, []⟩ "p" "bmp" 80 =
      .error ("Unsupported format: " ++ "bmp") :=
  unsupported_format_fails_at_encode _ _ _ _ _ (by decide)

/-- Claim C10: the WebP output path always receives an encoding of the
image converted to 3-channel RGB: `save_image` routed at `webp` encodes
`to_rgb8` of the image (alpha discarded pixel-wise), so two images that
agree on their RGB channels — whatever their alpha channels — produce the
identical WebP write, for every quality setting. -/
theorem webp_discards_alpha (fsOk : FsOracle) (img : DynamicImage)
    (path : String) (quality : Nat) (hfs : fsOk path = true) :
    save_image fsOk img path "webp" quality =
      .ok ⟨path, .webp (toRgb8 img) quality⟩ ∧
    (toRgb8 img).pixels = img.pixels.map Rgba.toRgb ∧
    (∀ img2 : DynamicImage, img.width = img2.width →
      img.height = img2.height →
      img.pixels.map Rgba.toRgb = img2.pixels.map Rgba.toRgb →
      save_image fsOk img path "webp" quality =
        save_image fsOk img2 path "webp" quality) := by
  have hsave : ∀ im : DynamicImage, save_image fsOk im path "webp" quality =
      .ok ⟨path, .webp (toRgb8 im) quality⟩ := by
    intro im
    have hl : toLowerStr "webp" = "webp" := by decide
    simp only [save_image, hl]
    rw [if_neg (by decide)]
    simp [save_webp, hfs]
  refine ⟨hsave img, rfl, ?_⟩
  intro img2 hwid hht hpix
  rw [hsave img, hsave img2]
  have hrgb : toRgb8 img = toRgb8 img2 := by
    unfold toRgb8
    rw [hwid, hht, hpix]
  rw [hrgb]

/-- Witness for the C10 theorem: two 1×1 images differing only in alpha
produce the identical WebP write. -/
theorem webp_discards_alpha_witness :
    save_image (fun _ => true) ⟨1, 1, [⟨1, 2, 3, 4⟩]⟩ "x.webp" "webp" 80 =
      .ok ⟨"x.webp", .webp (toRgb8 ⟨1, 1, [⟨1, 2, 3, 4⟩]⟩) 80⟩ ∧
    save_image (fun _ => true) ⟨1, 1, [⟨1, 2, 3, 4⟩]⟩ "x.webp" "webp" 80 =
      save_image (fun _ => true) ⟨1, 1, [⟨1, 2, 3, 255⟩]⟩ "x.webp" "webp" 80 :=
  ⟨(webp_discards_alpha _ _ _ _ rfl).1,
    (webp_discards_alpha _ _ _ _ rfl).2.2 ⟨1, 1, [⟨1, 2, 3, 255⟩]⟩ rfl rfl rfl⟩

/-! ## Concrete fixtures for the remaining witnesses -/

/-- A resampler whose pixel output is empty (pixel content is irrelevant to
the witnessed facts). -/
def rs0 : Resampler := fun _ _ _ => []

/-- A filesystem oracle on which every write succeeds. -/
def fsT : FsOracle := fun _ => true

/-- A 10×10 test image. -/
def img1010 : DynamicImage := ⟨10, 10, []⟩

/-- A decoder that decodes every path to the 10×10 test image. -/
def decOk : Decoder := fun _ => .ok img1010

/-- A decoder for which exactly `b.jpg` is corrupt. -/
def dec3 : Decoder := fun p => if p = "b.jpg" then .error "corrupt" else .ok img1010

/-- A 3-file batch whose second file is the corrupt one. -/
def files3 : List InputPath :=
  [⟨"a.jpg", some "a", some "."⟩, ⟨"b.jpg", some "b", some "."⟩,
    ⟨"c.jpg", some "c", some "."⟩]

/-- The batch result of running the 3-file batch (file 2 fails decoding). -/
def B3 : BatchResult := process_all dec3 rs0 fsT files3 ["png"] [100] 80 none

/-- A filesystem oracle on which exactly the `out/a_100pct.webp` write
fails. -/
def fsNoWebp : FsOracle := fun p => !(p == "out/a_100pct.webp")

/-- An input file `a.jpg` with stem `a` and parent `.`. -/
def file_a : InputPath := ⟨"a.jpg", some "a", some "."⟩

/-- Witness for the C2 theorem on the 3-file batch with one corrupt file. -/
theorem process_all_aggregate_report_witness :
    (B3.report = .ok () ↔ ∀ r ∈ B3.results, r = .ok ()) ∧
    B3.report = .error (Nat.repr B3.errors.length ++
      " images were not processed correctly") := by
  have h := process_all_aggregate_report dec3 rs0 fsT files3 ["png"] [100] 80
    none B3 rfl
  exact ⟨h.1, h.2.2.1 (by decide)⟩

/-- Witness for the C3 theorem: with formats `[jpg, webp, png]` at scale
100 and a failing webp write, the jpg output is kept, the png format and
the remaining scale 50 are never attempted, and the save error is the
outcome. -/
theorem first_failure_aborts_file_witness :
    processScales rs0 fsNoWebp img1010 "a" "out" ["jpg", "webp", "png"] 80
      [100, 50] =
      ([⟨"out/a_100pct.jpg", .jpeg img1010 80⟩],
        .error "Error saving: out/a_100pct.webp") :=
  (first_failure_aborts_file decOk rs0 fsNoWebp img1010 "a" "out" 80 none).2.1
    ["jpg", "webp", "png"] 100 [50] img1010
    [⟨"out/a_100pct.jpg", .jpeg img1010 80⟩]
    "Error saving: out/a_100pct.webp" (by decide) (by decide)

/-- Witness for the C4 theorem: a fully successful 2×2 matrix writes 4
files at the expected paths. -/
theorem success_writes_full_matrix_witness :
    (process_single_with_progress decOk rs0 fsT file_a ["jpg", "webp"]
      [100, 50] 80 (some "out")).1.length =
      ([100, 50] : List Nat).length * (["jpg", "webp"] : List String).length ∧
    (process_single_with_progress decOk rs0 fsT file_a ["jpg", "webp"]
      [100, 50] 80 (some "out")).1.map WriteEvent.path =
      ([100, 50] : List Nat).flatMap
        (fun s => ["jpg", "webp"].map (fun f => outPath "out" "a" s f)) ∧
    ((some "out" : Option String) = some "out" ∨
      ((some "out" : Option String) = none ∧
        file_a.parentDir = some "out")) :=
  success_writes_full_matrix decOk rs0 fsT file_a ["jpg", "webp"] [100, 50]
    80 (some "out") "a" "out" rfl rfl (by decide)

/-- Witness for the C6 theorem: a 3×4 image at scale 10 rounds to 0×0 and
fails, and as the first scale in the list it becomes the file's outcome
(scale 100 is never attempted). -/
theorem degenerate_scale_fails_witness :
    resize_image rs0 ⟨3, 4, []⟩ 10 =
      .error "Resulting dimensions too small: 0x0 (scale: 10%)" ∧
    processScales rs0 fsT ⟨3, 4, []⟩ "a" "out" ["png"] 80 [10, 100] =
      ([], .error "Resulting dimensions too small: 0x0 (scale: 10%)") := by
  have h := degenerate_scale_fails rs0 fsT ⟨3, 4, []⟩ 10 "a" "out" 80
    (by decide) (by decide)
  exact ⟨h.1, h.2.1 ["png"] [100]⟩

/-- Witness for the amended C7 theorem at a square image (proportional
box): a 10×10 image at scale 50 resizes to exactly 5×5. -/
theorem resize_fits_bounding_box_witness :
    ∃ r : DynamicImage,
      resize_image (fun _ _ _ => []) ⟨10, 10, []⟩ 50 = .ok r ∧
      r.width ≤ roundScale 10 50 ∧ r.height ≤ roundScale 10 50 ∧
      (roundScale 10 50 * 10 = roundScale 10 50 * 10 →
        r.width = roundScale 10 50 ∧ r.height = roundScale 10 50) :=
  resize_fits_bounding_box (fun _ _ _ => []) ⟨10, 10, []⟩ 50 (by decide)
    (by decide) (by decide) (by decide) (by decide)

end Rsimg
